import Mathlib

/-!
Shallow embedding of the rate limiter in `server.js` (DesignrKnight/shield).

Modelling conventions:
* Timestamps (`new Date()`, `Date.now()`) are integers in milliseconds (`ℤ`).
* The `node-cache` instance `IPCache` (created with `deleteOnExpire: false`)
  is a map from keys to an entry holding the stored value (a list of
  timestamps) and the absolute expiry deadline `t` in milliseconds.  A `NaN`
  deadline (produced by passing a `NaN` ttl to `set`) is modelled as `none`.
* `get`/`getTtl` are modelled as pure reads; the library's `'expired'` event
  is modelled as its own transition `onExpired`, which may fire for a key at
  any time `now` past the key's deadline, receiving the key's current value.
* Each handler invocation reads the clock through a single `now`, standing
  for its (sub-millisecond-separated) `new Date()` / `Date.now()` calls.
* JavaScript numbers are modelled exactly by `JSNum`: finite values are exact
  rationals plus the IEEE special values produced by division by zero.  All
  finite values arising here are integer counts, integer millisecond spans
  and their quotients, whose double-precision comparisons against the
  threshold agree with exact rational arithmetic.
-/

namespace Shield

/-- `TIME_FRAME_IN_S` (server.js line 9): the sliding window, in seconds. -/
def TIME_FRAME_IN_S : ℤ := 10

/-- `TIME_FRAME_IN_MS` (server.js line 10): the sliding window, in milliseconds. -/
def TIME_FRAME_IN_MS : ℤ := TIME_FRAME_IN_S * 1000

/-- `MS_TO_S` (server.js line 11): conversion factor from milliseconds to seconds. -/
def MS_TO_S : ℚ := 1 / 1000

/-- `RPS_LIMIT` (server.js line 12): the requests-per-second threshold. -/
def RPS_LIMIT : ℚ := 2

/-- Exact model of the JavaScript `Number` values arising in this program:
finite values as exact rationals, plus the IEEE special values that the
program's single division can produce. -/
inductive JSNum where
  | num (q : ℚ)
  | posInf
  | negInf
  | nan
deriving DecidableEq

/-- JavaScript division `a / b` for the operands occurring in this program
(both always finite): exact division, except that a nonzero value divided by
zero yields a signed infinity and `0 / 0` yields `NaN`.  The non-finite
operand cases never arise here and are mapped to `NaN`. -/
def JSNum.div : JSNum → JSNum → JSNum
  | JSNum.num a, JSNum.num b =>
      if b = 0 then
        if 0 < a then JSNum.posInf else if a < 0 then JSNum.negInf else JSNum.nan
      else JSNum.num (a / b)
  | _, _ => JSNum.nan

/-- JavaScript `>` on numbers: ordinary comparison on finite values,
`Infinity` above every finite value and `-Infinity`, and every comparison
involving `NaN` false. -/
def JSNum.gt : JSNum → JSNum → Bool
  | JSNum.num a, JSNum.num b => decide (b < a)
  | JSNum.posInf, JSNum.num _ => true
  | JSNum.posInf, JSNum.negInf => true
  | JSNum.num _, JSNum.negInf => true
  | _, _ => false

/-- One entry of the `node-cache` store: the stored value `v` (the array of
event timestamps for a key) and the absolute expiry deadline `t` in
milliseconds (node-cache's internal `t` field; `none` models a `NaN`
deadline, produced when a `NaN` ttl is passed to `set`). -/
structure CacheItem where
  v : List ℤ
  t : Option ℤ
deriving DecidableEq

/-- The state of the `IPCache` store: a map from keys to entries. -/
def Store := String → Option CacheItem

/-- The store at process start (after `flushAll` / fresh construction). -/
def emptyStore : Store := fun _ => none

namespace IPCache

/-- `IPCache.get(key)`: the stored array, or `undefined` for an absent key. -/
def get (s : Store) (k : String) : Option (List ℤ) :=
  (s k).map CacheItem.v

/-- `IPCache.getTtl(key)`: the absolute expiry deadline of the key in
milliseconds, `undefined` for an absent key.  A stored `NaN` deadline is also
returned as `none`: in `updateCache`, its only use, both `undefined` and
`NaN` fall through `|| TIME_FRAME_IN_S` to the same default. -/
def getTtl (s : Store) (k : String) : Option ℤ :=
  (s k).bind CacheItem.t

/-- `IPCache.del(key)`: remove the key from the store. -/
def del (s : Store) (k : String) : Store :=
  fun k' => if k' = k then none else s k'

/-- `IPCache.set(key, value, ttl)`, with the deadline already converted to an
absolute time: node-cache stores `t = Date.now() + ttl * 1000`; the call
sites below build that absolute deadline (or `none` for a `NaN` ttl). -/
def set (s : Store) (k : String) (v : List ℤ) (t : Option ℤ) : Store :=
  fun k' => if k' = k then some ⟨v, t⟩ else s k'

end IPCache

/-- `updateCache` (server.js lines 27–31): append the current timestamp to
the key's array (an absent key reads as `[]`) and re-`set` the entry with ttl
`(IPCache.getTtl(ip) - Date.now()) * MS_TO_S || TIME_FRAME_IN_S`.  When the
key has no deadline (`getTtl` is `undefined`, so the subtraction is `NaN`) or
the remaining time is exactly `0`, the falsy ttl selects the default
`TIME_FRAME_IN_S`, giving deadline `now + TIME_FRAME_IN_MS`; otherwise the
ttl is the old deadline's remaining time, so node-cache re-installs exactly
the old absolute deadline `t0` — even when `t0` is already in the past. -/
def updateCache (s : Store) (ip : String) (now : ℤ) : Store :=
  let IPArray := (IPCache.get s ip).getD [] ++ [now]
  let t : Option ℤ :=
    match IPCache.getTtl s ip with
    | some t0 => if t0 - now = 0 then some (now + TIME_FRAME_IN_MS) else some t0
    | none => some (now + TIME_FRAME_IN_MS)
  IPCache.set s ip IPArray t

/-- The requests-per-second computation of `ipMiddleware` (server.js line
37): `IPArray.length / ((IPArray[IPArray.length - 1] - IPArray[0]) * MS_TO_S)`.
The guard on line 36 ensures `IPArray` is non-empty at the use site, so the
`headD`/`getLastD` defaults are inert. -/
def rps (IPArray : List ℤ) : JSNum :=
  JSNum.div (JSNum.num (IPArray.length : ℚ))
    (JSNum.num (((IPArray.getLastD 0 - IPArray.headD 0 : ℤ) : ℚ) * MS_TO_S))

/-- The decision of `ipMiddleware` (server.js lines 36–38): with fewer than
two timestamps nothing is computed (not exceeded); otherwise the limit is
exceeded iff `rps > RPS_LIMIT`. -/
def ipDecision (IPArray : List ℤ) : Bool :=
  if 1 < IPArray.length then JSNum.gt (rps IPArray) (JSNum.num RPS_LIMIT) else false

/-- The externally observable actions of one `ipMiddleware` invocation. -/
inductive Action where
  | banRequest (ip : String)
  | logLimit (ip : String)
  | next
deriving DecidableEq

/-- `ipMiddleware` (server.js lines 32–55): record the event, re-read the
key's array, decide, and perform the observable actions in order — on an
exceeded decision the Cloudflare ban call (lines 39–49, its failure caught
and only logged) and the limit log line (line 51), then unconditionally
`next()` (line 54). -/
def ipMiddleware (s : Store) (clientIP : String) (now : ℤ) :
    Store × Bool × List Action :=
  let s' := updateCache s clientIP now
  let IPArray := (IPCache.get s' clientIP).getD []
  let exceeded := ipDecision IPArray
  (s', exceeded,
    (if exceeded then [Action.banRequest clientIP, Action.logLimit clientIP] else [])
      ++ [Action.next])

/-- The `'expired'` event handler (server.js lines 16–25), fired for `key`
whose current stored value is `value`, at time `now`.  If even the newest
timestamp is more than `TIME_FRAME_IN_MS` old, the key is deleted; otherwise
the value is filtered to the strictly-live timestamps and re-`set` with ttl
`TIME_FRAME_IN_S - (new Date() - updatedValue[0]) * MS_TO_S`.  When
`updatedValue` is empty, `updatedValue[0]` is `undefined` and that ttl is
`NaN` (modelled `none`). -/
def onExpired (s : Store) (key : String) (value : List ℤ) (now : ℤ) : Store :=
  if TIME_FRAME_IN_MS < now - value.getLastD 0 then
    IPCache.del s key
  else
    let updatedValue := value.filter (fun element => decide (now - element < TIME_FRAME_IN_MS))
    let t : Option ℤ :=
      if updatedValue.isEmpty then none
      else some (now + (TIME_FRAME_IN_MS - (now - updatedValue.headD 0)))
    IPCache.set s key updatedValue t

/-- Run a sequence of requests from one client through `ipMiddleware`,
returning the final store and the decision reported after each request. -/
def runTrace (s : Store) (ip : String) (events : List ℤ) : Store × List Bool :=
  match events with
  | [] => (s, [])
  | e :: rest =>
      let r := ipMiddleware s ip e
      let tail := runTrace r.1 ip rest
      (tail.1, r.2.1 :: tail.2)

/-! ### Helper lemmas -/

theorem IPCache.get_updateCache (s : Store) (ip : String) (now : ℤ) :
    IPCache.get (updateCache s ip now) ip =
      some ((IPCache.get s ip).getD [] ++ [now]) := by
  simp [updateCache, IPCache.get, IPCache.set]

theorem filter_live_ne_nil (V : List ℤ) (now : ℤ) (hne : V ≠ [])
    (hlive : now - V.getLastD 0 < TIME_FRAME_IN_MS) :
    V.filter (fun element => decide (now - element < TIME_FRAME_IN_MS)) ≠ [] := by
  have hmem : V.getLast hne ∈ V := List.getLast_mem hne
  have hlast : V.getLastD 0 = V.getLast hne := by
    rw [List.getLastD_eq_getLast?, List.getLast?_eq_getLast V hne]
    rfl
  refine List.ne_nil_of_mem (a := V.getLast hne) ?_
  rw [List.mem_filter]
  exact ⟨hmem, by rw [hlast] at hlive; simpa using hlive⟩

theorem chain_getLastD_ge (x : ℤ) (xs : List ℤ)
    (h : (x :: xs).Chain' (fun a b => a + 1000 ≤ b)) :
    x + 1000 * (xs.length : ℤ) ≤ (x :: xs).getLastD 0 := by
  induction xs generalizing x with
  | nil => simp
  | cons y ys ih =>
      rw [List.chain'_cons] at h
      have h2 := ih y h.2
      have hgl : (x :: y :: ys).getLastD 0 = (y :: ys).getLastD 0 := by
        simp [List.getLastD_cons]
      rw [hgl]
      have h1 := h.1
      simp only [List.length_cons] at h2 ⊢
      push_cast at h2 ⊢
      linarith

/-- Any history whose consecutive timestamps are at least 1000 ms apart is
classified as not exceeded by `ipDecision`. -/
theorem ipDecision_of_chain (V : List ℤ)
    (h : V.Chain' (fun a b => a + 1000 ≤ b)) : ipDecision V = false := by
  match V with
  | [] => simp [ipDecision]
  | [x] => simp [ipDecision]
  | x :: y :: ys =>
      have hspan := chain_getLastD_ge x (y :: ys) h
      simp only [List.length_cons] at hspan
      have hpos : (0 : ℤ) < (x :: y :: ys).getLastD 0 - x := by
        have : (0 : ℤ) ≤ (ys.length : ℤ) := Int.natCast_nonneg _
        omega
      have hheadD : (x :: y :: ys).headD 0 = x := rfl
      have hQspan : (0 : ℚ) < (((x :: y :: ys).getLastD 0 - x : ℤ) : ℚ) := by
        exact_mod_cast hpos
      have hbpos : (0 : ℚ) < (((x :: y :: ys).getLastD 0 - x : ℤ) : ℚ) * MS_TO_S := by
        rw [MS_TO_S]; positivity
      unfold ipDecision
      rw [if_pos (by simp)]
      unfold rps
      rw [hheadD]
      rw [JSNum.div]
      rw [if_neg (ne_of_gt hbpos)]
      rw [JSNum.gt, RPS_LIMIT]
      rw [decide_eq_false_iff_not]
      rw [not_lt, div_le_iff₀ hbpos]
      have hcast : (1000 : ℚ) * ((ys.length : ℚ) + 2 - 1) ≤
          (((x :: y :: ys).getLastD 0 - x : ℤ) : ℚ) := by
        have hspan2 : (x : ℚ) + 1000 * ((ys.length : ℚ) + 1) ≤
            (((x :: y :: ys).getLastD 0 : ℤ) : ℚ) := by
          exact_mod_cast hspan
        push_cast
        linarith
      have hlen : (((x :: y :: ys).length : ℕ) : ℚ) = (ys.length : ℚ) + 2 := by
        push_cast [List.length_cons]
        ring
      rw [hlen, MS_TO_S]
      have hny : (0 : ℚ) ≤ (ys.length : ℚ) := by positivity
      nlinarith [hcast, hny]

/-- Along any request trace for key `ip`, if the key's stored history stays a
chain with gaps of at least 1000 ms, every reported decision is `false`. -/
theorem runTrace_decisions_false (ip : String) (events : List ℤ) :
    ∀ (s : Store) (V0 : List ℤ),
      (IPCache.get s ip).getD [] = V0 →
      (V0 ++ events).Chain' (fun a b => a + 1000 ≤ b) →
      ∀ d ∈ (runTrace s ip events).2, d = false := by
  induction events with
  | nil =>
      intro s V0 h hc d hd
      simp [runTrace] at hd
  | cons e rest ih =>
      intro s V0 h hc d hd
      have hget : IPCache.get (updateCache s ip e) ip = some (V0 ++ [e]) := by
        rw [IPCache.get_updateCache, h]
      have hchain1 : (V0 ++ [e]).Chain' (fun a b => a + 1000 ≤ b) := by
        have hrw : V0 ++ e :: rest = (V0 ++ [e]) ++ rest := by simp
        rw [hrw] at hc
        have htk : (V0 ++ [e]) = ((V0 ++ [e]) ++ rest).take (V0 ++ [e]).length := by
          rw [List.take_left]
        rw [htk]
        exact hc.take _
      simp only [runTrace, List.mem_cons] at hd
      rcases hd with hd | hd
      · subst hd
        have hmid : (ipMiddleware s ip e).2.1 = ipDecision (V0 ++ [e]) := by
          simp [ipMiddleware, hget]
        rw [hmid]
        exact ipDecision_of_chain _ hchain1
      · have hnext : (IPCache.get ((ipMiddleware s ip e).1) ip).getD [] = V0 ++ [e] := by
          simp [ipMiddleware, hget]
        refine ih (ipMiddleware s ip e).1 (V0 ++ [e]) hnext ?_ d hd
        simpa using hc

/-! ### Claim theorems -/

/-- C6: whenever the expiry callback fires for a key whose newest retained
timestamp is older than `WINDOW` (`now - V[last] > WINDOW`), the key is
deleted from the store entirely — both its value and its deadline are gone. -/
theorem C6_full_eviction (s : Store) (k : String) (V : List ℤ) (now : ℤ)
    (hstale : TIME_FRAME_IN_MS < now - V.getLastD 0) :
    IPCache.get (onExpired s k V now) k = none ∧
    IPCache.getTtl (onExpired s k V now) k = none := by
  rw [onExpired, if_pos hstale]
  constructor <;> simp [IPCache.del, IPCache.get, IPCache.getTtl]

/-- Witness for C6: a key whose only event is at `t = 0` is fully removed
when the callback fires at `t = 20001`. -/
theorem C6_full_eviction_witness :
    TIME_FRAME_IN_MS < (20001 : ℤ) - ([(0 : ℤ)].getLastD 0) ∧
    IPCache.get (onExpired (updateCache emptyStore "client" 0) "client" [0] 20001) "client" = none ∧
    IPCache.getTtl (onExpired (updateCache emptyStore "client" 0) "client" [0] 20001) "client" = none :=
  ⟨by norm_num [TIME_FRAME_IN_MS, TIME_FRAME_IN_S],
   C6_full_eviction (updateCache emptyStore "client" 0) "client" [0] 20001
     (by norm_num [TIME_FRAME_IN_MS, TIME_FRAME_IN_S])⟩

/-- C7: when the history after `recordEvent` has more than one timestamp and
all retained timestamps are identical (`V[last] - V[first] = 0`), the
evaluation does not fault: the computed rate is `+Infinity` (JavaScript's
division of a positive count by zero) and the decision is "exceeded". -/
theorem C7_zero_span_exceeded (s : Store) (ip : String) (now : ℤ) (V : List ℤ)
    (hV : IPCache.get (updateCache s ip now) ip = some V)
    (hlen : 1 < V.length)
    (hspan : V.getLastD 0 - V.headD 0 = 0) :
    rps V = JSNum.posInf ∧ (ipMiddleware s ip now).2.1 = true := by
  have hrps : rps V = JSNum.posInf := by
    unfold rps
    rw [hspan, JSNum.div]
    rw [if_pos (by norm_num [MS_TO_S])]
    rw [if_pos (by exact_mod_cast Nat.lt_of_lt_of_le Nat.zero_lt_one hlen.le)]
  refine ⟨hrps, ?_⟩
  simp only [ipMiddleware, hV, Option.getD_some]
  rw [ipDecision, if_pos hlen, hrps]
  rfl

/-- Witness for C7: a second event at the same millisecond as the first gives
history `[7, 7]`, rate `+Infinity`, decision exceeded. -/
theorem C7_zero_span_exceeded_witness :
    IPCache.get (updateCache (IPCache.set emptyStore "client" [7] (some 10007)) "client" 7) "client" =
      some [7, 7] ∧
    rps [7, 7] = JSNum.posInf ∧
    (ipMiddleware (IPCache.set emptyStore "client" [7] (some 10007)) "client" 7).2.1 = true :=
  ⟨by rw [IPCache.get_updateCache]; norm_num [IPCache.get, IPCache.set, emptyStore],
   C7_zero_span_exceeded (IPCache.set emptyStore "client" [7] (some 10007)) "client" 7 [7, 7]
     (by rw [IPCache.get_updateCache]; norm_num [IPCache.get, IPCache.set, emptyStore])
     (by norm_num) (by norm_num)⟩

/-- C8: when the retained history after `recordEvent` contains exactly one
timestamp, the decision is "not exceeded" — no rate is computed from a single
sample. -/
theorem C8_single_sample (s : Store) (ip : String) (now : ℤ) (V : List ℤ)
    (hV : IPCache.get (updateCache s ip now) ip = some V)
    (hlen : V.length = 1) :
    (ipMiddleware s ip now).2.1 = false := by
  simp only [ipMiddleware, hV, Option.getD_some]
  rw [ipDecision, hlen, if_neg (by norm_num)]

/-- Witness for C8: the first event ever recorded for a key yields history
`[0]` and decision not exceeded. -/
theorem C8_single_sample_witness :
    IPCache.get (updateCache emptyStore "client" 0) "client" = some [0] ∧
    (ipMiddleware emptyStore "client" 0).2.1 = false :=
  ⟨by rw [IPCache.get_updateCache]; norm_num [IPCache.get, emptyStore],
   C8_single_sample emptyStore "client" 0 [0]
     (by rw [IPCache.get_updateCache]; norm_num [IPCache.get, emptyStore]) (by norm_num)⟩

/-- C9: recording an event for a key absent from the store (never seen, or
already fully evicted) is not an error: it creates a fresh one-element entry
whose deadline is `now + WINDOW`, exactly as for a brand-new key. -/
theorem C9_absent_key_fresh (s : Store) (ip : String) (now : ℤ)
    (habs : IPCache.get s ip = none) :
    IPCache.get (updateCache s ip now) ip = some [now] ∧
    IPCache.getTtl (updateCache s ip now) ip = some (now + TIME_FRAME_IN_MS) := by
  have hs : s ip = none := by
    simpa [IPCache.get] using habs
  constructor <;>
    simp [updateCache, IPCache.get, IPCache.getTtl, IPCache.set, hs]

/-- Witness for C9, the spec's concrete scenario: key records at `t = 0`, the
scheduler fully evicts it at `t = 12000`, and the event at `t = 15000` builds
a fresh entry `[15000]` with deadline `25000`, not a continuation. -/
theorem C9_absent_key_fresh_witness :
    IPCache.get (onExpired (updateCache emptyStore "client" 0) "client" [0] 12000) "client" = none ∧
    IPCache.get
      (updateCache (onExpired (updateCache emptyStore "client" 0) "client" [0] 12000) "client" 15000)
      "client" = some [15000] ∧
    IPCache.getTtl
      (updateCache (onExpired (updateCache emptyStore "client" 0) "client" [0] 12000) "client" 15000)
      "client" = some (15000 + TIME_FRAME_IN_MS) :=
  ⟨by norm_num [onExpired, updateCache, IPCache.get, IPCache.getTtl, IPCache.set, IPCache.del,
     emptyStore, TIME_FRAME_IN_MS, TIME_FRAME_IN_S],
   C9_absent_key_fresh (onExpired (updateCache emptyStore "client" 0) "client" [0] 12000)
     "client" 15000
     (by norm_num [onExpired, updateCache, IPCache.get, IPCache.getTtl, IPCache.set, IPCache.del,
        emptyStore, TIME_FRAME_IN_MS, TIME_FRAME_IN_S])⟩

/-- C10: every invocation of the middleware performs `next()` exactly once
and as its final action, regardless of the decision; an exceeded decision
adds only the external ban call and a log line before it, so the request is
never rejected or short-circuited by the server itself. -/
theorem C10_next_always (s : Store) (ip : String) (now : ℤ) :
    (ipMiddleware s ip now).2.2.count Action.next = 1 ∧
    (ipMiddleware s ip now).2.2.getLastD Action.next = Action.next ∧
    (ipMiddleware s ip now).2.2 =
      (if (ipMiddleware s ip now).2.1 then
        [Action.banRequest ip, Action.logLimit ip] else []) ++ [Action.next] := by
  cases h : ipDecision ((IPCache.get (updateCache s ip now) ip).getD []) <;>
    simp [ipMiddleware, h, List.count_cons]

/-- C1 as stated is false: after events at `t = 0` ms and `t = 900` ms the
history is `[0, 900]`, the code reports the decision "exceeded", yet the
claimed rate `(|V| - 1) / span = 1 / 0.9 ≈ 1.11` does not exceed
`RPS_LIMIT = 2`, and the reported rate is `|V| / span = 2 / 0.9`, not
`(|V| - 1) / span`. -/
theorem C1_counterexample :
    IPCache.get (ipMiddleware (ipMiddleware emptyStore "client" 0).1 "client" 900).1 "client" =
      some [0, 900] ∧
    (ipMiddleware (ipMiddleware emptyStore "client" 0).1 "client" 900).2.1 = true ∧
    rps [0, 900] ≠
      JSNum.num (((([0, 900] : List ℤ).length : ℚ) - 1) /
        (((([0, 900] : List ℤ).getLastD 0 - ([0, 900] : List ℤ).headD 0 : ℤ) : ℚ) * MS_TO_S)) ∧
    ¬ RPS_LIMIT <
        ((([0, 900] : List ℤ).length : ℚ) - 1) /
          (((([0, 900] : List ℤ).getLastD 0 - ([0, 900] : List ℤ).headD 0 : ℤ) : ℚ) * MS_TO_S) := by
  refine ⟨?_, ?_, ?_, ?_⟩ <;>
    norm_num [ipMiddleware, updateCache, ipDecision, rps, JSNum.gt, JSNum.div,
      RPS_LIMIT, MS_TO_S, IPCache.get, IPCache.getTtl, IPCache.set, emptyStore,
      TIME_FRAME_IN_MS, TIME_FRAME_IN_S]

/-- C1 (amended): for a history `V` after `recordEvent` with more than one
timestamp and a nonzero span, the reported rate is `|V| / span_seconds` (not
`(|V| - 1) / span_seconds`), and the decision is "exceeded" iff that rate
strictly exceeds `RPS_LIMIT` (a rate exactly equal to the limit is not
exceeded). -/
theorem C1_amended (s : Store) (ip : String) (now : ℤ) (V : List ℤ)
    (hV : IPCache.get (updateCache s ip now) ip = some V)
    (hlen : 1 < V.length)
    (hspan : V.getLastD 0 - V.headD 0 ≠ 0) :
    rps V = JSNum.num ((V.length : ℚ) /
        (((V.getLastD 0 - V.headD 0 : ℤ) : ℚ) * MS_TO_S)) ∧
    ((ipMiddleware s ip now).2.1 = true ↔
      RPS_LIMIT < (V.length : ℚ) / (((V.getLastD 0 - V.headD 0 : ℤ) : ℚ) * MS_TO_S)) := by
  have hb : (((V.getLastD 0 - V.headD 0 : ℤ) : ℚ) * MS_TO_S) ≠ 0 := by
    rw [MS_TO_S]
    exact mul_ne_zero (Int.cast_ne_zero.mpr hspan) (by norm_num)
  have hrps : rps V = JSNum.num ((V.length : ℚ) /
      (((V.getLastD 0 - V.headD 0 : ℤ) : ℚ) * MS_TO_S)) := by
    unfold rps
    rw [JSNum.div, if_neg hb]
  refine ⟨hrps, ?_⟩
  simp only [ipMiddleware, hV, Option.getD_some]
  rw [ipDecision, if_pos hlen, hrps]
  simp [JSNum.gt]

/-- Witness for the amended C1 at history `[0, 900]`: the decision is
"exceeded" because `2 / 0.9 > 2`. -/
theorem C1_amended_witness :
    1 < ([0, 900] : List ℤ).length ∧
    ((ipMiddleware (IPCache.set emptyStore "client" [0] (some 10000)) "client" 900).2.1 = true ↔
      RPS_LIMIT < (([0, 900] : List ℤ).length : ℚ) /
        (((([0, 900] : List ℤ).getLastD 0 - ([0, 900] : List ℤ).headD 0 : ℤ) : ℚ) * MS_TO_S)) :=
  ⟨by norm_num,
   (C1_amended (IPCache.set emptyStore "client" [0] (some 10000)) "client" 900 [0, 900]
     (by rw [IPCache.get_updateCache]; norm_num [IPCache.get, IPCache.set, emptyStore])
     (by norm_num) (by norm_num)).2⟩

/-- C2 as stated is false: two events 600 ms apart are strictly slower than
one event per `1 / RPS_LIMIT = 0.5` seconds, yet the decision after the
second event is "exceeded", because the code computes `2 / 0.6 ≈ 3.33 > 2`. -/
theorem C2_counterexample :
    (1 / RPS_LIMIT) < ((600 : ℚ) - 0) * MS_TO_S ∧
    (runTrace emptyStore "client" [0, 600]).2 = [false, true] := by
  constructor
  · norm_num [RPS_LIMIT, MS_TO_S]
  · norm_num [runTrace, ipMiddleware, updateCache, ipDecision, rps, JSNum.gt, JSNum.div,
      RPS_LIMIT, MS_TO_S, IPCache.get, IPCache.getTtl, IPCache.set, emptyStore,
      TIME_FRAME_IN_MS, TIME_FRAME_IN_S]

/-- C2 (amended): for every key and every sequence of recorded events whose
consecutive events are at least `2 / RPS_LIMIT` seconds (1000 ms) apart, the
decision after every recorded event is "not exceeded".  The halved rate bound
is forced by the `length / span` formula: it is tight at two events. -/
theorem C2_amended (events : List ℤ) (ip : String)
    (h : events.Chain' (fun a b => a + 1000 ≤ b)) :
    ∀ d ∈ (runTrace emptyStore ip events).2, d = false :=
  runTrace_decisions_false ip events emptyStore []
    (by simp [IPCache.get, emptyStore]) (by simpa using h)

/-- Witness for the amended C2: three events spaced 1200 ms apart all report
"not exceeded". -/
theorem C2_amended_witness :
    ([0, 1200, 2400] : List ℤ).Chain' (fun a b => a + 1000 ≤ b) ∧
    ∀ d ∈ (runTrace emptyStore "client" [0, 1200, 2400]).2, d = false :=
  ⟨by norm_num [List.chain'_cons],
   C2_amended [0, 1200, 2400] "client" (by norm_num [List.chain'_cons])⟩

/-- C3 as stated is false at the window boundary: when the callback fires for
entry `[0]` at `now = 10000`, the fire condition `now - V[last] ≤ WINDOW`
holds (`10000 ≤ 10000`), the full-eviction branch is not taken, the strict
filter `now - t < WINDOW` retains nothing, and partial compaction installs
the empty entry. -/
theorem C3_counterexample :
    ¬ TIME_FRAME_IN_MS < (10000 : ℤ) - ([(0 : ℤ)].getLastD 0) ∧
    IPCache.get (onExpired (IPCache.set emptyStore "k" [0] (some 10000)) "k" [0] 10000) "k" =
      some [] := by
  constructor
  · norm_num [TIME_FRAME_IN_MS, TIME_FRAME_IN_S]
  · norm_num [onExpired, IPCache.get, IPCache.set, IPCache.del, emptyStore,
      TIME_FRAME_IN_MS, TIME_FRAME_IN_S]

/-- C3 (amended): whenever the expiry callback fires for a non-empty entry
`V` with `now - V[last] < WINDOW` (strictly), the filtered subsequence is
non-empty, so partial compaction installs a non-empty entry; only at
`now - V[last] = WINDOW` exactly does it install an empty one. -/
theorem C3_amended (s : Store) (k : String) (V : List ℤ) (now : ℤ)
    (hne : V ≠ []) (hlive : now - V.getLastD 0 < TIME_FRAME_IN_MS) :
    IPCache.get (onExpired s k V now) k =
      some (V.filter (fun element => decide (now - element < TIME_FRAME_IN_MS))) ∧
    V.filter (fun element => decide (now - element < TIME_FRAME_IN_MS)) ≠ [] := by
  have hbranch : ¬ TIME_FRAME_IN_MS < now - V.getLastD 0 := by omega
  constructor
  · rw [onExpired, if_neg hbranch]
    simp [IPCache.get, IPCache.set]
  · exact filter_live_ne_nil V now hne hlive

/-- Witness for the amended C3: entry `[2000, 9000]` compacted at
`now = 15000` keeps the non-empty live subsequence `[9000]`. -/
theorem C3_amended_witness :
    ([2000, 9000] : List ℤ) ≠ [] ∧
    (15000 : ℤ) - ([2000, 9000] : List ℤ).getLastD 0 < TIME_FRAME_IN_MS ∧
    IPCache.get
      (onExpired (IPCache.set emptyStore "k" [2000, 9000] (some 12000)) "k" [2000, 9000] 15000)
      "k" =
      some (([2000, 9000] : List ℤ).filter
        (fun element => decide ((15000 : ℤ) - element < TIME_FRAME_IN_MS))) ∧
    ([2000, 9000] : List ℤ).filter
      (fun element => decide ((15000 : ℤ) - element < TIME_FRAME_IN_MS)) ≠ [] :=
  ⟨by simp, by norm_num [TIME_FRAME_IN_MS, TIME_FRAME_IN_S],
   C3_amended (IPCache.set emptyStore "k" [2000, 9000] (some 12000)) "k" [2000, 9000] 15000
     (by simp) (by norm_num [TIME_FRAME_IN_MS, TIME_FRAME_IN_S])⟩

/-- C4 as stated is false: a key with events at `t = 0` and `t = 5000` keeps
its original deadline `10000` after the second `recordEvent`, which is
earlier than `now + WINDOW = 15000` — the existing deadline is preserved even
though it expires before the new event's nominal deadline. -/
theorem C4_counterexample :
    IPCache.getTtl (updateCache (updateCache emptyStore "client" 0) "client" 5000) "client" =
      some 10000 ∧
    (10000 : ℤ) < 5000 + TIME_FRAME_IN_MS := by
  constructor
  · norm_num [updateCache, IPCache.getTtl, IPCache.get, IPCache.set, emptyStore,
      TIME_FRAME_IN_MS, TIME_FRAME_IN_S]
  · norm_num [TIME_FRAME_IN_MS, TIME_FRAME_IN_S]

/-- C4 (amended): after `recordEvent(key, now)` the pre-existing deadline is
preserved unconditionally whenever its remaining time is nonzero — even when
it is earlier than `now + WINDOW`; the deadline is set to `now + WINDOW` only
when the key has no deadline or the remaining time is exactly zero.  The
deadline is therefore not always at least `WINDOW` past the most recent
event. -/
theorem C4_amended (s : Store) (ip : String) (now : ℤ) :
    IPCache.getTtl (updateCache s ip now) ip =
      some (match IPCache.getTtl s ip with
            | some t0 => if t0 - now = 0 then now + TIME_FRAME_IN_MS else t0
            | none => now + TIME_FRAME_IN_MS) := by
  cases h : IPCache.getTtl s ip with
  | none =>
      simp only [updateCache, h]
      simp [IPCache.getTtl, IPCache.set]
  | some t0 =>
      by_cases h0 : t0 - now = 0 <;>
      · simp only [updateCache, h]
        simp [IPCache.getTtl, IPCache.set, h0]

/-- C5 as stated is false at the window boundary: firing for entry `[5000]`
at `now = 15000` satisfies `now - V[last] ≤ WINDOW`, but no timestamp
survives the strict filter, so there is no "new oldest surviving timestamp":
the installed entry is empty and the stored deadline is the invalid `NaN`
(no finite re-armed deadline `V'[0] + WINDOW` exists). -/
theorem C5_counterexample :
    ¬ TIME_FRAME_IN_MS < (15000 : ℤ) - ([(5000 : ℤ)].getLastD 0) ∧
    IPCache.get (onExpired (IPCache.set emptyStore "k" [5000] (some 12000)) "k" [5000] 15000)
      "k" = some [] ∧
    IPCache.getTtl (onExpired (IPCache.set emptyStore "k" [5000] (some 12000)) "k" [5000] 15000)
      "k" = none := by
  refine ⟨?_, ?_, ?_⟩ <;>
    norm_num [onExpired, IPCache.get, IPCache.getTtl, IPCache.set, IPCache.del, emptyStore,
      TIME_FRAME_IN_MS, TIME_FRAME_IN_S]

/-- C5 (amended): whenever the expiry callback fires for a non-empty entry
`V` with `now - V[last] < WINDOW` (strictly), the entry is replaced by
exactly the subsequence of timestamps with `now - t < WINDOW` in their
original relative order (a sublist, and non-empty), and the deadline is
re-armed to `V'[0] + WINDOW`, firing exactly when the new oldest surviving
timestamp goes stale. -/
theorem C5_amended (s : Store) (k : String) (V : List ℤ) (now : ℤ)
    (hne : V ≠ []) (hlive : now - V.getLastD 0 < TIME_FRAME_IN_MS) :
    IPCache.get (onExpired s k V now) k =
      some (V.filter (fun element => decide (now - element < TIME_FRAME_IN_MS))) ∧
    (V.filter (fun element => decide (now - element < TIME_FRAME_IN_MS))).Sublist V ∧
    V.filter (fun element => decide (now - element < TIME_FRAME_IN_MS)) ≠ [] ∧
    IPCache.getTtl (onExpired s k V now) k =
      some ((V.filter (fun element => decide (now - element < TIME_FRAME_IN_MS))).headD 0 +
        TIME_FRAME_IN_MS) := by
  have hfil := filter_live_ne_nil V now hne hlive
  have hbranch : ¬ TIME_FRAME_IN_MS < now - V.getLastD 0 := by omega
  refine ⟨?_, List.filter_sublist V, hfil, ?_⟩
  · rw [onExpired, if_neg hbranch]
    simp [IPCache.get, IPCache.set]
  · rw [onExpired, if_neg hbranch]
    have hempty : (V.filter (fun element => decide (now - element < TIME_FRAME_IN_MS))).isEmpty
        = false := by
      simpa [List.isEmpty_iff] using hfil
    simp [IPCache.getTtl, IPCache.set, hempty]
    omega

/-- Witness for the amended C5: entry `[0, 5000]` compacted at `now = 12000`
keeps `[5000]` and re-arms the deadline to `5000 + WINDOW = 15000`. -/
theorem C5_amended_witness :
    ([0, 5000] : List ℤ) ≠ [] ∧
    (12000 : ℤ) - ([0, 5000] : List ℤ).getLastD 0 < TIME_FRAME_IN_MS ∧
    IPCache.get
      (onExpired (IPCache.set emptyStore "k" [0, 5000] (some 10000)) "k" [0, 5000] 12000) "k" =
      some (([0, 5000] : List ℤ).filter
        (fun element => decide ((12000 : ℤ) - element < TIME_FRAME_IN_MS))) ∧
    IPCache.getTtl
      (onExpired (IPCache.set emptyStore "k" [0, 5000] (some 10000)) "k" [0, 5000] 12000) "k" =
      some ((([0, 5000] : List ℤ).filter
        (fun element => decide ((12000 : ℤ) - element < TIME_FRAME_IN_MS))).headD 0 +
        TIME_FRAME_IN_MS) := by
  have h := C5_amended (IPCache.set emptyStore "k" [0, 5000] (some 10000)) "k" [0, 5000] 12000
    (by simp) (by norm_num [TIME_FRAME_IN_MS, TIME_FRAME_IN_S])
  exact ⟨by simp, by norm_num [TIME_FRAME_IN_MS, TIME_FRAME_IN_S], h.1, h.2.2.2⟩

end Shield
